import Mathlib

/-!
Shallow embedding of the `dwt-systick-monotonic` crate (src/lib.rs): a
`rtic_monotonic::Monotonic` implementation combining the DWT cycle counter
(a free-running 32-bit up-counter) with the SysTick 24-bit down-counter.

Modelling conventions:
* Machine integers (`u32`, `u64`) are `Nat` with explicit `% 2^32` / `% 2^64`
  wherever the Rust code truncates or wraps; side conditions such as
  `cyccnt < 2^32` state that a value inhabits its Rust type.
* The crate has two compile-time configurations: the narrow one
  (`cfg(not(feature = "extend"))`, 32-bit instants) and the wide one
  (`cfg(feature = "extend")`, 64-bit instants with overflow tracking).
  Each is embedded as its own state structure and set of operations.
* The hardware cycle counter `DWT::cycle_count()` is an external read; it is
  passed to each operation as an explicit argument `cyccnt` (a `u32` value).
* SysTick register writes (`set_reload`, `clear_current`) become updates of a
  `SYST` record; `clear_current` writes the current-value register, which the
  hardware clears to 0.
-/

namespace DwtSystickModel

/-- SysTick register file as seen by the driver: the reload register SYST_RVR
written by `set_reload`, and the current-value register SYST_CVR, which any
write (`clear_current`) clears to 0. -/
structure SYST where
  reload : Nat
  current : Nat
  deriving Repr, DecidableEq

/-- State of `DwtSystick<TIMER_HZ>` in the narrow configuration
(`cfg(not(feature = "extend"))`): the owned SysTick and the `cycle_offset`
baseline (`TimerInstantU32`, in ticks). -/
structure DwtSystickNarrow where
  systick : SYST
  cycle_offset : Nat
  deriving Repr, DecidableEq

/-- State of `DwtSystick<TIMER_HZ>` in the wide configuration
(`cfg(feature = "extend")`): additionally `last : u64`, the most recently
observed extended cycle count. `cycle_offset` is a `TimerInstantU64`. -/
structure DwtSystickExtend where
  systick : SYST
  cycle_offset : Nat
  last : Nat
  deriving Repr, DecidableEq

/-- The associated constant `Monotonic::DISABLE_INTERRUPT_ON_EMPTY_QUEUE` as
the source declares it, indexed by whether the `extend` feature is on:
`true` under `cfg(feature = "extend")` (lib.rs:93-94) and `false` under
`cfg(not(feature = "extend"))` (lib.rs:95-97). -/
def DISABLE_INTERRUPT_ON_EMPTY_QUEUE (extend : Bool) : Bool :=
  if extend then true else false

/-- Constructor `DwtSystick::new` (lib.rs:41-64), narrow configuration.
It asserts `TIMER_HZ == sysclk` and `DWT::has_cycle_counter()`; an assertion
failure is a panic, modelled as `none`. On success the cycle counter is
cleared and both counters started (hardware effects outside this state), and
the returned state has `cycle_offset = TimerInstant::from_ticks(0)`.
The SysTick register file is taken over as-is. -/
def newNarrow (timer_hz : Nat) (systick : SYST) (sysclk : Nat)
    (has_cycle_counter : Bool) : Option DwtSystickNarrow :=
  if timer_hz = sysclk then
    if has_cycle_counter then
      some { systick := systick, cycle_offset := 0 }
    else none
  else none

/-- Constructor `DwtSystick::new` (lib.rs:41-64), wide configuration: as in
the narrow case, with additionally `last = 0`. -/
def newExtend (timer_hz : Nat) (systick : SYST) (sysclk : Nat)
    (has_cycle_counter : Bool) : Option DwtSystickExtend :=
  if timer_hz = sysclk then
    if has_cycle_counter then
      some { systick := systick, cycle_offset := 0, last := 0 }
    else none
  else none

/-- Narrow branch of `unadjusted_now` (lib.rs:68-69): the raw `u32` cycle
count, reinterpreted as an instant. -/
def unadjustedNowNarrow (cyccnt : Nat) : Nat := cyccnt

/-- Wide branch of `unadjusted_now` (lib.rs:70-82), as a function of the
stored `last : u64` and the raw reading `cyccnt : u32`; returns the new
value of `last`, which is also the returned instant's tick count.
Line by line: `high = (last >> 32) as u32` is `last / 2^32 % 2^32`,
`low = last as u32` is `last % 2^32`; if `cyccnt < low` an overflow of the
32-bit counter is inferred and `high` is bumped by `wrapping_add(1)`
(`% 2^32`); the new `last` is `((high as u64) << 32) | (cyccnt as u64)`. -/
def unadjustedNowExtend (last cyccnt : Nat) : Nat :=
  let high := last / 2 ^ 32 % 2 ^ 32
  let low := last % 2 ^ 32
  let high2 := if cyccnt < low then (high + 1) % 2 ^ 32 else high
  (high2 <<< 32) ||| cyccnt

/-- Stateful `unadjusted_now` in the wide configuration: stores the
reconstructed value as the new `last` and returns it (lib.rs:79-81). -/
def DwtSystickExtend.unadjusted_now (s : DwtSystickExtend) (cyccnt : Nat) :
    DwtSystickExtend × Nat :=
  let l := unadjustedNowExtend s.last cyccnt
  ({ s with last := l }, l)

/-- Rust release-mode wrapping subtraction on a `w`-bit unsigned integer,
used to give the `-` of lib.rs:88 a total meaning. For `a, b < 2^w` this is
the two's-complement wrap of `a - b`. -/
def wrappingSub (w a b : Nat) : Nat := (a + (2 ^ w - b % 2 ^ w)) % 2 ^ w

/-- Method `adjusted_now` (lib.rs:86-89), narrow configuration:
`unadjusted_now().ticks() - cycle_offset.ticks()` on `u32`. -/
def DwtSystickNarrow.adjusted_now (s : DwtSystickNarrow) (cyccnt : Nat) : Nat :=
  wrappingSub 32 (unadjustedNowNarrow cyccnt) s.cycle_offset

/-- Method `adjusted_now` (lib.rs:86-89), wide configuration: the subtraction
is on `u64` and `unadjusted_now` also updates `last`. -/
def DwtSystickExtend.adjusted_now (s : DwtSystickExtend) (cyccnt : Nat) :
    DwtSystickExtend × Nat :=
  let p := s.unadjusted_now cyccnt
  (p.1, wrappingSub 64 p.2 s.cycle_offset)

/-- Trait method `now` (lib.rs:102-105): simply `self.unadjusted_now()`.
Narrow configuration (stateless). -/
def DwtSystickNarrow.now (_s : DwtSystickNarrow) (cyccnt : Nat) : Nat :=
  unadjustedNowNarrow cyccnt

/-- Trait method `now` (lib.rs:102-105), wide configuration. -/
def DwtSystickExtend.now (s : DwtSystickExtend) (cyccnt : Nat) :
    DwtSystickExtend × Nat :=
  s.unadjusted_now cyccnt

/-- Trait method `reset` (lib.rs:107-109), narrow configuration:
`self.cycle_offset = self.unadjusted_now()`. -/
def DwtSystickNarrow.reset (s : DwtSystickNarrow) (cyccnt : Nat) :
    DwtSystickNarrow :=
  { s with cycle_offset := unadjustedNowNarrow cyccnt }

/-- Trait method `reset` (lib.rs:107-109), wide configuration: the
`unadjusted_now()` call also updates `last`. -/
def DwtSystickExtend.reset (s : DwtSystickExtend) (cyccnt : Nat) :
    DwtSystickExtend :=
  let p := s.unadjusted_now cyccnt
  { p.1 with cycle_offset := p.2 }

/-- Fugit `Instant::checked_duration_since` on tick counts: `some (a - b)`
when `b <= a`, otherwise `none`. -/
def checked_duration_since (a b : Nat) : Option Nat :=
  if b ≤ a then some (a - b) else none

/-- The reload value computed by `set_compare` (lib.rs:114-127) from the
ticks of `self.now()` and of the target `val`:
`val.checked_duration_since(now).map_or(0, |d| d.ticks()).max(1).min(0xff_ffff) as u32`.
The final `% 2^32` is the `as u32` cast. -/
def setCompareReload (nowv val : Nat) : Nat :=
  ((((checked_duration_since val nowv).elim 0 (fun d => d)).max 1).min
    0xffffff) % 2 ^ 32

/-- Trait method `set_compare` (lib.rs:111-133), narrow configuration:
computes the reload from `self.now()` and `val`, writes it to the SysTick
reload register, then clears the current-value register. -/
def DwtSystickNarrow.set_compare (s : DwtSystickNarrow) (cyccnt val : Nat) :
    DwtSystickNarrow :=
  let reload := setCompareReload (s.now cyccnt) val
  { s with systick := { reload := reload, current := 0 } }

/-- Trait method `set_compare` (lib.rs:111-133), wide configuration: the
`self.now()` call additionally updates `last`. -/
def DwtSystickExtend.set_compare (s : DwtSystickExtend) (cyccnt val : Nat) :
    DwtSystickExtend :=
  let p := s.now cyccnt
  let reload := setCompareReload p.2 val
  { p.1 with systick := { reload := reload, current := 0 } }

/-- Trait method `zero` (lib.rs:135-138): `Instant::from_ticks(0)`. -/
def zero : Nat := 0

/-- Trait method `clear_compare_flag` (lib.rs:140-155), narrow
configuration: the `cfg(feature = "extend")` block is compiled out, so the
method does nothing. -/
def DwtSystickNarrow.clear_compare_flag (s : DwtSystickNarrow) :
    DwtSystickNarrow := s

/-- Trait method `clear_compare_flag` (lib.rs:140-155), wide configuration:
`set_reload(0xff_ffff)` then `clear_current()`. -/
def DwtSystickExtend.clear_compare_flag (s : DwtSystickExtend) :
    DwtSystickExtend :=
  { s with systick := { reload := 0xffffff, current := 0 } }

/-- Trait method `on_interrupt` (lib.rs:157-162), wide configuration only:
calls `self.now()` for its effect on `last`. -/
def DwtSystickExtend.on_interrupt (s : DwtSystickExtend) (cyccnt : Nat) :
    DwtSystickExtend :=
  (s.now cyccnt).1

/-- The wide-configuration read as the specification describes it, written
from the spec's words for comparison with the source embedding
`unadjustedNowExtend`: take the low 32 bits and high 32 bits of the stored
`last`; infer a wraparound exactly when the raw value is numerically less
than the low bits; in that case increment the high bits with wrapping;
reconstruct the 64-bit value from the (possibly incremented) high half and
the raw value. -/
def unadjustedNowExtendSpec (last cyccnt : Nat) : Nat :=
  let low := last % 2 ^ 32
  let high := last / 2 ^ 32 % 2 ^ 32
  let wraparound := cyccnt < low
  let high2 := if wraparound then (high + 1) % 2 ^ 32 else high
  high2 * 2 ^ 32 + cyccnt

/-- Hypothesis on a sequence of true (unwrapped) cycle counts `T`, relative
to the previously observed true count `prev`: each count is at least its
predecessor, advances by less than one full 32-bit wrap period (so at most
one wraparound happens between consecutive reads), and fits in 64 bits. -/
def wellSpaced : Nat → List Nat → Bool
  | _, [] => true
  | prev, t :: ts =>
    decide (prev ≤ t) && decide (t - prev < 2 ^ 32) && decide (t < 2 ^ 64) &&
      wellSpaced t ts

/-- The sequence of `last` values produced by successive `unadjusted_now`
calls in the wide configuration, starting from stored value `last`, when the
raw hardware readings are the low 32 bits of the true counts `T`. -/
def lastTrace : Nat → List Nat → List Nat
  | _, [] => []
  | last, t :: ts =>
    let l := unadjustedNowExtend last (t % 2 ^ 32)
    l :: lastTrace l ts

/-! Helper lemmas about the embedded operations. -/

/-- Reassembling disjoint bit ranges is plain arithmetic: for a 32-bit `b`,
`(a << 32) | b = a * 2^32 + b`. -/
theorem shiftLeft_or_eq (a b : Nat) (h : b < 2 ^ 32) :
    (a <<< 32) ||| b = a * 2 ^ 32 + b := by
  rw [Nat.shiftLeft_eq, Nat.mul_comm, ← Nat.mul_add_lt_is_or h, Nat.mul_comm]

/-- Arithmetic form of the wide-configuration read for a genuine `u32`
reading. -/
theorem unadjustedNowExtend_arith (last cyccnt : Nat) (h : cyccnt < 2 ^ 32) :
    unadjustedNowExtend last cyccnt =
      (if cyccnt < last % 2 ^ 32 then (last / 2 ^ 32 % 2 ^ 32 + 1) % 2 ^ 32
        else last / 2 ^ 32 % 2 ^ 32) * 2 ^ 32 + cyccnt := by
  simp only [unadjustedNowExtend]
  split <;> rw [shiftLeft_or_eq _ _ h]

/-- The reconstructed value is a `u64`. -/
theorem unadjustedNowExtend_lt (last cyccnt : Nat) (h : cyccnt < 2 ^ 32) :
    unadjustedNowExtend last cyccnt < 2 ^ 64 := by
  rw [unadjustedNowExtend_arith last cyccnt h]
  simp only [show (2:Nat) ^ 32 = 4294967296 by norm_num,
    show (2:Nat) ^ 64 = 18446744073709551616 by norm_num] at *
  split <;> omega

/-- The low 32 bits of the reconstructed value are the raw reading. -/
theorem unadjustedNowExtend_low (last cyccnt : Nat) (h : cyccnt < 2 ^ 32) :
    unadjustedNowExtend last cyccnt % 2 ^ 32 = cyccnt := by
  rw [unadjustedNowExtend_arith last cyccnt h]
  simp only [show (2:Nat) ^ 32 = 4294967296 by norm_num] at *
  split <;> omega

/-- Reading the very cycle count stored in `last` is a fixpoint: the strict
comparison `cyccnt < low` does not fire, so `last` is rebuilt unchanged. -/
theorem unadjustedNowExtend_fixed (last cyccnt : Nat) (hl : last < 2 ^ 64)
    (h : cyccnt = last % 2 ^ 32) : unadjustedNowExtend last cyccnt = last := by
  subst h
  rw [unadjustedNowExtend_arith _ _ (Nat.mod_lt _ (by norm_num))]
  simp only [show (2:Nat) ^ 32 = 4294967296 by norm_num,
    show (2:Nat) ^ 64 = 18446744073709551616 by norm_num] at *
  split <;> omega

/-- Single-step correctness of overflow extension: if `last` holds the true
previous count `t`, and the true count advances to `t2` with less than one
full 32-bit period elapsed, then reading `t2 % 2^32` reconstructs exactly
`t2`. -/
theorem unadjustedNowExtend_step (t t2 : Nat) (h1 : t ≤ t2)
    (h2 : t2 - t < 2 ^ 32) (h3 : t2 < 2 ^ 64) :
    unadjustedNowExtend t (t2 % 2 ^ 32) = t2 := by
  rw [unadjustedNowExtend_arith _ _ (Nat.mod_lt _ (by norm_num))]
  simp only [show (2:Nat) ^ 32 = 4294967296 by norm_num,
    show (2:Nat) ^ 64 = 18446744073709551616 by norm_num] at *
  split <;> omega

/-- When the subtrahend does not exceed the minuend, `w`-bit wrapping
subtraction is exact truncated subtraction: no wrap occurs. -/
theorem wrappingSub_exact (w a b : Nat) (hb : b ≤ a) (ha : a < 2 ^ w) :
    wrappingSub w a b = a - b := by
  unfold wrappingSub
  generalize 2 ^ w = m at ha ⊢
  have hb2 : b < m := lt_of_le_of_lt hb ha
  rw [Nat.mod_eq_of_lt hb2]
  have hsplit : a + (m - b) = m + (a - b) := by omega
  rw [hsplit, Nat.add_mod_left, Nat.mod_eq_of_lt (by omega)]

/-- The reload computation of `set_compare` is the clamp of the tick delta
`val - now` (truncated subtraction: 0 for a past target) to `[1, 0xffffff]`;
the trailing `as u32` cast never truncates. -/
theorem setCompareReload_eq (nowv val : Nat) :
    setCompareReload nowv val = min (max (val - nowv) 1) 0xffffff := by
  have hmod : ∀ x : Nat, min (max x 1) 0xffffff % 2 ^ 32 = min (max x 1) 0xffffff :=
    fun x => Nat.mod_eq_of_lt (lt_of_le_of_lt (min_le_right _ _) (by norm_num))
  unfold setCompareReload checked_duration_since
  split
  · simp only [Option.elim]
    exact hmod _
  · simp only [Option.elim]
    rw [Nat.sub_eq_zero_of_le (by omega)]
    exact hmod 0

/-- A well-spaced run of true counts is reconstructed verbatim by the
overflow-extension loop, starting from a stored `last` equal to the previous
true count. -/
theorem lastTrace_eq (T : List Nat) :
    ∀ t : Nat, wellSpaced t T = true → lastTrace t T = T := by
  induction T with
  | nil => intro t _; rfl
  | cons a ts ih =>
    intro t h
    simp only [wellSpaced, Bool.and_eq_true, decide_eq_true_eq] at h
    obtain ⟨⟨⟨h1, h2⟩, h3⟩, h4⟩ := h
    simp only [lastTrace]
    rw [unadjustedNowExtend_step t a h1 h2 h3]
    exact congrArg (a :: ·) (ih a h4)

/-- A well-spaced run of true counts is non-decreasing. -/
theorem wellSpaced_chain (T : List Nat) :
    ∀ p : Nat, wellSpaced p T = true → List.Chain (· ≤ ·) p T := by
  induction T with
  | nil => intro p _; exact List.Chain.nil
  | cons a ts ih =>
    intro p h
    simp only [wellSpaced, Bool.and_eq_true, decide_eq_true_eq] at h
    exact List.Chain.cons h.1.1.1 (ih a h.2)

/-! Claim theorems. -/

/-- C1: the claim states that `DISABLE_INTERRUPT_ON_EMPTY_QUEUE` is false in
the wide (extend) configuration and true in the narrow one. The source does
the opposite: this theorem evaluates the embedded constant and shows the
code yields `true` under `cfg(feature = "extend")` and `false` under
`cfg(not(feature = "extend"))`, contradicting the claim (and the code's own
comments at lib.rs:96 and lib.rs:143-145, which say interrupts must stay
enabled precisely when overflows are being tracked). -/
theorem C1_code_assigns_true_in_wide :
    DISABLE_INTERRUPT_ON_EMPTY_QUEUE true = true ∧
    DISABLE_INTERRUPT_ON_EMPTY_QUEUE false = false := by
  decide

/-- C2 counterexample: with the hardware counter at 100, `reset()` sets
`cycle_offset` to 100, yet the very next `now()` with the counter unchanged
returns 100, not 0 — `now()` is the unadjusted reading (lib.rs:102-105) and
never subtracts `cycle_offset`. -/
theorem C2_counterexample :
    ((DwtSystickNarrow.mk ⟨0, 0⟩ 0).reset 100).cycle_offset = 100 ∧
    ((DwtSystickNarrow.mk ⟨0, 0⟩ 0).reset 100).now 100 ≠ 0 := by
  decide

/-- C2 (amended): `reset()` sets `cycle_offset` to the current unadjusted
reading, and it is `adjusted_now()` — not `now()` — that is thereby made
relative to the reset moment: invoked immediately after `reset()` with the
hardware counter unchanged, `adjusted_now()` reads zero, while `now()`
still returns the unadjusted reading. Stated for both configurations. -/
theorem C2_reset_makes_adjusted_now_zero (sn : DwtSystickNarrow)
    (se : DwtSystickExtend) (cyccnt : Nat) (hc : cyccnt < 2 ^ 32) :
    (sn.reset cyccnt).cycle_offset = unadjustedNowNarrow cyccnt ∧
    (sn.reset cyccnt).adjusted_now cyccnt = 0 ∧
    (sn.reset cyccnt).now cyccnt = unadjustedNowNarrow cyccnt ∧
    (se.reset cyccnt).cycle_offset = unadjustedNowExtend se.last cyccnt ∧
    ((se.reset cyccnt).adjusted_now cyccnt).2 = 0 ∧
    ((se.reset cyccnt).now cyccnt).2 = unadjustedNowExtend se.last cyccnt := by
  have hL : unadjustedNowExtend se.last cyccnt < 2 ^ 64 :=
    unadjustedNowExtend_lt _ _ hc
  have hlow : unadjustedNowExtend se.last cyccnt % 2 ^ 32 = cyccnt :=
    unadjustedNowExtend_low _ _ hc
  have hfix : unadjustedNowExtend (unadjustedNowExtend se.last cyccnt) cyccnt =
      unadjustedNowExtend se.last cyccnt :=
    unadjustedNowExtend_fixed _ _ hL hlow.symm
  refine ⟨rfl, ?_, rfl, rfl, ?_, ?_⟩
  · simp [DwtSystickNarrow.adjusted_now, DwtSystickNarrow.reset,
      unadjustedNowNarrow, wrappingSub_exact 32 cyccnt cyccnt le_rfl hc]
  · simp [DwtSystickExtend.adjusted_now, DwtSystickExtend.reset,
      DwtSystickExtend.unadjusted_now, hfix,
      wrappingSub_exact 64 _ _ le_rfl hL]
  · simp [DwtSystickExtend.now, DwtSystickExtend.reset,
      DwtSystickExtend.unadjusted_now, hfix]

/-- C2 witness: the amended statement instantiated at a concrete state and
reading. -/
theorem C2_reset_witness :
    (100 : Nat) < 2 ^ 32 ∧
    (((DwtSystickNarrow.mk ⟨0, 0⟩ 0).reset 100).cycle_offset =
        unadjustedNowNarrow 100 ∧
      ((DwtSystickNarrow.mk ⟨0, 0⟩ 0).reset 100).adjusted_now 100 = 0 ∧
      ((DwtSystickNarrow.mk ⟨0, 0⟩ 0).reset 100).now 100 =
        unadjustedNowNarrow 100 ∧
      ((DwtSystickExtend.mk ⟨0, 0⟩ 0 7).reset 100).cycle_offset =
        unadjustedNowExtend 7 100 ∧
      (((DwtSystickExtend.mk ⟨0, 0⟩ 0 7).reset 100).adjusted_now 100).2 = 0 ∧
      (((DwtSystickExtend.mk ⟨0, 0⟩ 0 7).reset 100).now 100).2 =
        unadjustedNowExtend 7 100) :=
  ⟨by decide,
    C2_reset_makes_adjusted_now_zero (DwtSystickNarrow.mk ⟨0, 0⟩ 0)
      (DwtSystickExtend.mk ⟨0, 0⟩ 0 7) 100 (by decide)⟩

/-- C3: in both configurations, `set_compare(val)` writes the reload value
`clamp(val - now(), 1, 0xffffff)` to the SysTick reload register; in
particular the reload is the exact tick delta whenever `1 <= val - now() <=
0xffffff`, and exactly `0xffffff` whenever the delta exceeds `0xffffff`. -/
theorem C3_set_compare_clamp (sn : DwtSystickNarrow) (se : DwtSystickExtend)
    (cyccnt val : Nat) :
    ((sn.set_compare cyccnt val).systick.reload =
        min (max (val - sn.now cyccnt) 1) 0xffffff ∧
      (se.set_compare cyccnt val).systick.reload =
        min (max (val - (se.now cyccnt).2) 1) 0xffffff) ∧
    (1 ≤ val - sn.now cyccnt → val - sn.now cyccnt ≤ 0xffffff →
      (sn.set_compare cyccnt val).systick.reload = val - sn.now cyccnt) ∧
    (0xffffff < val - sn.now cyccnt →
      (sn.set_compare cyccnt val).systick.reload = 0xffffff) ∧
    (1 ≤ val - (se.now cyccnt).2 → val - (se.now cyccnt).2 ≤ 0xffffff →
      (se.set_compare cyccnt val).systick.reload = val - (se.now cyccnt).2) ∧
    (0xffffff < val - (se.now cyccnt).2 →
      (se.set_compare cyccnt val).systick.reload = 0xffffff) := by
  have hn : (sn.set_compare cyccnt val).systick.reload =
      min (max (val - sn.now cyccnt) 1) 0xffffff := by
    simp [DwtSystickNarrow.set_compare, setCompareReload_eq]
  have he : (se.set_compare cyccnt val).systick.reload =
      min (max (val - (se.now cyccnt).2) 1) 0xffffff := by
    simp [DwtSystickExtend.set_compare, setCompareReload_eq]
  refine ⟨⟨hn, he⟩, ?_, ?_, ?_, ?_⟩ <;> intros <;> [rw [hn]; rw [hn]; rw [he]; rw [he]] <;> omega

/-- C3 witness: a target 490 ticks ahead yields the exact delta as reload;
one 19999990 ticks ahead is clamped to 0xffffff. -/
theorem C3_set_compare_witness :
    ((DwtSystickNarrow.mk ⟨0, 0⟩ 0).set_compare 10 500).systick.reload =
        500 - (DwtSystickNarrow.mk ⟨0, 0⟩ 0).now 10 ∧
    ((DwtSystickExtend.mk ⟨0, 0⟩ 0 3).set_compare 10 20000000).systick.reload =
        0xffffff :=
  ⟨(C3_set_compare_clamp (DwtSystickNarrow.mk ⟨0, 0⟩ 0)
      (DwtSystickExtend.mk ⟨0, 0⟩ 0 3) 10 500).2.1 (by decide) (by decide),
    (C3_set_compare_clamp (DwtSystickNarrow.mk ⟨0, 0⟩ 0)
      (DwtSystickExtend.mk ⟨0, 0⟩ 0 3) 10 20000000).2.2.2.2 (by decide)⟩

/-- C4: in both configurations, when the target is at or before the current
time (`val <= now()`), `set_compare` writes a reload of exactly 1, never 0:
the failed `checked_duration_since` is mapped to 0 and `.max(1)` lifts it
(and an exact-zero delta likewise) to the minimum legal reload. -/
theorem C4_past_target_reload_one (sn : DwtSystickNarrow)
    (se : DwtSystickExtend) (cyccnt val : Nat) (hn : val ≤ sn.now cyccnt)
    (he : val ≤ (se.now cyccnt).2) :
    ((sn.set_compare cyccnt val).systick.reload = 1 ∧
      (sn.set_compare cyccnt val).systick.reload ≠ 0) ∧
    ((se.set_compare cyccnt val).systick.reload = 1 ∧
      (se.set_compare cyccnt val).systick.reload ≠ 0) := by
  have e1 : (sn.set_compare cyccnt val).systick.reload =
      setCompareReload (sn.now cyccnt) val := rfl
  have e2 : (se.set_compare cyccnt val).systick.reload =
      setCompareReload (se.now cyccnt).2 val := rfl
  have h1 : (sn.set_compare cyccnt val).systick.reload = 1 := by
    rw [e1, setCompareReload_eq, Nat.sub_eq_zero_of_le hn]
    decide
  have h2 : (se.set_compare cyccnt val).systick.reload = 1 := by
    rw [e2, setCompareReload_eq, Nat.sub_eq_zero_of_le he]
    decide
  exact ⟨⟨h1, by simp [h1]⟩, ⟨h2, by simp [h2]⟩⟩

/-- C4 witness: a target 50 ticks in the past (counter at 100) produces
reload 1 in both configurations. -/
theorem C4_past_target_witness :
    (50 : Nat) ≤ (DwtSystickNarrow.mk ⟨0, 0⟩ 0).now 100 ∧
    (50 : Nat) ≤ ((DwtSystickExtend.mk ⟨0, 0⟩ 0 0).now 100).2 ∧
    ((((DwtSystickNarrow.mk ⟨0, 0⟩ 0).set_compare 100 50).systick.reload = 1 ∧
        (((DwtSystickNarrow.mk ⟨0, 0⟩ 0).set_compare 100 50).systick.reload ≠
          0)) ∧
      (((DwtSystickExtend.mk ⟨0, 0⟩ 0 0).set_compare 100 50).systick.reload =
          1 ∧
        (((DwtSystickExtend.mk ⟨0, 0⟩ 0 0).set_compare 100
              50).systick.reload ≠
          0))) :=
  ⟨by decide, by decide,
    C4_past_target_reload_one (DwtSystickNarrow.mk ⟨0, 0⟩ 0)
      (DwtSystickExtend.mk ⟨0, 0⟩ 0 0) 100 50 (by decide) (by decide)⟩

/-- C5: in the wide configuration, `unadjusted_now()` behaves exactly as the
specification describes: it reconstructs the value given by
`unadjustedNowExtendSpec` (wraparound inferred exactly when the raw value is
less than the low 32 bits of `last`, high half incremented with wrapping,
64-bit value rebuilt from the high half and the raw value), stores it as the
new `last`, returns it, and touches nothing else in the state. -/
theorem C5_unadjusted_now_matches_spec (se : DwtSystickExtend) (cyccnt : Nat)
    (hc : cyccnt < 2 ^ 32) :
    (se.unadjusted_now cyccnt).1.last = unadjustedNowExtendSpec se.last cyccnt ∧
    (se.unadjusted_now cyccnt).2 = unadjustedNowExtendSpec se.last cyccnt ∧
    (se.unadjusted_now cyccnt).1.cycle_offset = se.cycle_offset ∧
    (se.unadjusted_now cyccnt).1.systick = se.systick := by
  have h : unadjustedNowExtend se.last cyccnt =
      unadjustedNowExtendSpec se.last cyccnt := by
    rw [unadjustedNowExtend_arith _ _ hc]
    simp only [unadjustedNowExtendSpec]
  exact ⟨h, h, rfl, rfl⟩

/-- C5 witness: with `last = 2^32 - 5` and a raw reading of 10 a wraparound
is inferred and both the stored and returned value become `2^32 + 10`. -/
theorem C5_unadjusted_now_witness :
    (10 : Nat) < 2 ^ 32 ∧
    (((DwtSystickExtend.mk ⟨7, 8⟩ 3 4294967291).unadjusted_now 10).1.last =
        unadjustedNowExtendSpec 4294967291 10 ∧
      ((DwtSystickExtend.mk ⟨7, 8⟩ 3 4294967291).unadjusted_now 10).2 =
        unadjustedNowExtendSpec 4294967291 10 ∧
      ((DwtSystickExtend.mk ⟨7, 8⟩ 3 4294967291).unadjusted_now
            10).1.cycle_offset =
        (DwtSystickExtend.mk ⟨7, 8⟩ 3 4294967291).cycle_offset ∧
      ((DwtSystickExtend.mk ⟨7, 8⟩ 3 4294967291).unadjusted_now
            10).1.systick =
        (DwtSystickExtend.mk ⟨7, 8⟩ 3 4294967291).systick) :=
  ⟨by decide,
    C5_unadjusted_now_matches_spec (DwtSystickExtend.mk ⟨7, 8⟩ 3 4294967291) 10
      (by decide)⟩

/-- C6: starting from the freshly constructed wide state (`last = 0`), for
every sequence of true cycle counts that is non-decreasing, advances by less
than one full 32-bit period between consecutive reads (at most one wrap),
and stays within 64 bits, the successive `last` values produced by
`unadjusted_now` from the raw 32-bit readings equal the raw reading plus the
correct wrap count times `2^32`, and the sequence is monotonically
non-decreasing. -/
theorem C6_extension_reconstructs (T : List Nat) (h : wellSpaced 0 T = true) :
    lastTrace 0 T = T.map (fun t => t % 2 ^ 32 + t / 2 ^ 32 * 2 ^ 32) ∧
    List.Chain' (· ≤ ·) (lastTrace 0 T) := by
  have htr : lastTrace 0 T = T := lastTrace_eq T 0 h
  have hid : ∀ t : Nat, t % 2 ^ 32 + t / 2 ^ 32 * 2 ^ 32 = t := fun t =>
    Nat.mod_add_div' t (2 ^ 32)
  constructor
  · rw [htr, funext hid, List.map_id']
  · rw [htr]
    cases T with
    | nil => exact List.chain'_nil
    | cons a ts =>
      simp only [wellSpaced, Bool.and_eq_true, decide_eq_true_eq] at h
      exact wellSpaced_chain ts a h.2

/-- C6 witness: a concrete run crossing the 32-bit boundary once. -/
theorem C6_extension_witness :
    wellSpaced 0 [5, 4000000000, 4294967300, 8000000000] = true ∧
    (lastTrace 0 [5, 4000000000, 4294967300, 8000000000] =
        [5, 4000000000, 4294967300, 8000000000].map
          (fun t => t % 2 ^ 32 + t / 2 ^ 32 * 2 ^ 32) ∧
      List.Chain' (· ≤ ·)
        (lastTrace 0 [5, 4000000000, 4294967300, 8000000000])) :=
  ⟨by decide, C6_extension_reconstructs _ (by decide)⟩

/-- C7: `clear_compare_flag()` is the identity in the narrow configuration;
in the wide configuration it writes the maximum reload `0xffffff` to the
SysTick reload register and clears the current-value register, leaving
`cycle_offset` and `last` untouched. -/
theorem C7_clear_compare_flag (sn : DwtSystickNarrow) (se : DwtSystickExtend) :
    sn.clear_compare_flag = sn ∧
    se.clear_compare_flag.systick.reload = 0xffffff ∧
    se.clear_compare_flag.systick.current = 0 ∧
    se.clear_compare_flag.cycle_offset = se.cycle_offset ∧
    se.clear_compare_flag.last = se.last :=
  ⟨rfl, rfl, rfl, rfl, rfl⟩

/-- C8: in both configurations, construction fails (the assertions at
lib.rs:42 and lib.rs:46 panic) exactly when the declared frequency differs
from the measured one or the hardware lacks a cycle counter; on success the
returned state has `cycle_offset = 0` and, in the wide configuration,
`last = 0`. -/
theorem C8_construction (timer_hz sysclk : Nat) (syst : SYST) (hcc : Bool) :
    (newNarrow timer_hz syst sysclk hcc = none ↔
      timer_hz ≠ sysclk ∨ hcc = false) ∧
    (newExtend timer_hz syst sysclk hcc = none ↔
      timer_hz ≠ sysclk ∨ hcc = false) ∧
    (∀ s, newNarrow timer_hz syst sysclk hcc = some s → s.cycle_offset = 0) ∧
    (∀ s, newExtend timer_hz syst sysclk hcc = some s →
      s.cycle_offset = 0 ∧ s.last = 0) := by
  cases hcc <;> by_cases h1 : timer_hz = sysclk <;>
    simp [newNarrow, newExtend, h1]

/-- C8 witness: the spec scenario — declared 48 MHz against measured 8 MHz
fails in both configurations — and a successful construction yields zeroed
offset and `last`. -/
theorem C8_construction_witness :
    newNarrow 48000000 ⟨0, 0⟩ 8000000 true = none ∧
    newExtend 48000000 ⟨0, 0⟩ 8000000 true = none ∧
    ((DwtSystickExtend.mk ⟨0, 0⟩ 0 0).cycle_offset = 0 ∧
      (DwtSystickExtend.mk ⟨0, 0⟩ 0 0).last = 0) :=
  ⟨(C8_construction 48000000 8000000 ⟨0, 0⟩ true).1.mpr (Or.inl (by decide)),
    (C8_construction 48000000 8000000 ⟨0, 0⟩ true).2.1.mpr
      (Or.inl (by decide)),
    (C8_construction 48000000 48000000 ⟨0, 0⟩ true).2.2.2
      (DwtSystickExtend.mk ⟨0, 0⟩ 0 0) (by decide)⟩

/-- C9: `adjusted_now()` equals `unadjusted_now() - cycle_offset`, and under
the invariant that the offset never exceeds a later unadjusted reading the
subtraction is exact — adding the offset back recovers the reading, so no
wrap (and hence no saturation) occurs. Stated for both configurations. -/
theorem C9_adjusted_now_exact (sn : DwtSystickNarrow) (se : DwtSystickExtend)
    (cyccnt : Nat) (hc : cyccnt < 2 ^ 32)
    (hn : sn.cycle_offset ≤ unadjustedNowNarrow cyccnt)
    (he : se.cycle_offset ≤ unadjustedNowExtend se.last cyccnt) :
    sn.adjusted_now cyccnt = unadjustedNowNarrow cyccnt - sn.cycle_offset ∧
    sn.cycle_offset + sn.adjusted_now cyccnt = unadjustedNowNarrow cyccnt ∧
    (se.adjusted_now cyccnt).2 =
      unadjustedNowExtend se.last cyccnt - se.cycle_offset ∧
    se.cycle_offset + (se.adjusted_now cyccnt).2 =
      unadjustedNowExtend se.last cyccnt := by
  have hL : unadjustedNowExtend se.last cyccnt < 2 ^ 64 :=
    unadjustedNowExtend_lt _ _ hc
  have a1 : sn.adjusted_now cyccnt =
      wrappingSub 32 (unadjustedNowNarrow cyccnt) sn.cycle_offset := rfl
  have a2 : (se.adjusted_now cyccnt).2 =
      wrappingSub 64 (unadjustedNowExtend se.last cyccnt) se.cycle_offset :=
    rfl
  rw [a1, a2, wrappingSub_exact 32 _ _ hn hc, wrappingSub_exact 64 _ _ he hL]
  exact ⟨rfl, by omega, rfl, by omega⟩

/-- C9 witness: concrete states whose offsets precede the readings. -/
theorem C9_adjusted_now_witness :
    (100 : Nat) < 2 ^ 32 ∧
    (DwtSystickNarrow.mk ⟨0, 0⟩ 30).cycle_offset ≤ unadjustedNowNarrow 100 ∧
    (DwtSystickExtend.mk ⟨0, 0⟩ 5 40).cycle_offset ≤
      unadjustedNowExtend 40 100 ∧
    ((DwtSystickNarrow.mk ⟨0, 0⟩ 30).adjusted_now 100 =
        unadjustedNowNarrow 100 - (DwtSystickNarrow.mk ⟨0, 0⟩ 30).cycle_offset ∧
      (DwtSystickNarrow.mk ⟨0, 0⟩ 30).cycle_offset +
          (DwtSystickNarrow.mk ⟨0, 0⟩ 30).adjusted_now 100 =
        unadjustedNowNarrow 100 ∧
      ((DwtSystickExtend.mk ⟨0, 0⟩ 5 40).adjusted_now 100).2 =
        unadjustedNowExtend 40 100 -
          (DwtSystickExtend.mk ⟨0, 0⟩ 5 40).cycle_offset ∧
      (DwtSystickExtend.mk ⟨0, 0⟩ 5 40).cycle_offset +
          ((DwtSystickExtend.mk ⟨0, 0⟩ 5 40).adjusted_now 100).2 =
        unadjustedNowExtend 40 100) :=
  ⟨by decide, by decide, by decide,
    C9_adjusted_now_exact (DwtSystickNarrow.mk ⟨0, 0⟩ 30)
      (DwtSystickExtend.mk ⟨0, 0⟩ 5 40) 100 (by decide) (by decide)
      (by decide)⟩

/-- C10: in the wide configuration, reading a raw value equal to the low 32
bits of the stored `last` is a fixpoint: no spurious wraparound is inferred
(the detection uses strict less-than), the returned instant equals `last`,
and the whole state is unchanged. -/
theorem C10_repeated_reading_fixpoint (se : DwtSystickExtend) (cyccnt : Nat)
    (hl : se.last < 2 ^ 64) (h : cyccnt = se.last % 2 ^ 32) :
    (se.unadjusted_now cyccnt).2 = se.last ∧
    (se.unadjusted_now cyccnt).1 = se := by
  have hfix := unadjustedNowExtend_fixed se.last cyccnt hl h
  refine ⟨hfix, ?_⟩
  show { se with last := unadjustedNowExtend se.last cyccnt } = se
  rw [hfix]

/-- C10 witness: with `last = 2^32 + 10` already past one wrap, re-reading
raw value 10 returns `last` and leaves the state untouched. -/
theorem C10_repeated_reading_witness :
    (4294967306 : Nat) < 2 ^ 64 ∧ (10 : Nat) = 4294967306 % 2 ^ 32 ∧
    (((DwtSystickExtend.mk ⟨1, 2⟩ 3 4294967306).unadjusted_now 10).2 =
        (DwtSystickExtend.mk ⟨1, 2⟩ 3 4294967306).last ∧
      ((DwtSystickExtend.mk ⟨1, 2⟩ 3 4294967306).unadjusted_now 10).1 =
        DwtSystickExtend.mk ⟨1, 2⟩ 3 4294967306) :=
  ⟨by decide, by decide,
    C10_repeated_reading_fixpoint (DwtSystickExtend.mk ⟨1, 2⟩ 3 4294967306) 10
      (by decide) (by decide)⟩

end DwtSystickModel
